import Mathlib

/-!
Shallow embedding of `SALib/sample/morris.py` (the `Sample` and `Morris`
classes) together with the collaborator behaviour the spec describes for the
trajectory builders.  Python exceptions are modelled with `Except`, numpy
matrices with lists of rationals or with explicit entry functions, and the
in-place mutation of numpy arrays with an explicit heap of arrays.
-/

namespace SALib

/-- Distinct error values, one per distinct `raise`/validation site described
by the code and the spec (`ConfigurationError` taxonomy). -/
inductive ConfigError where
  | optimalGEQSamples
  | optimalGT10
  | optimalLEQ1
  | groupParamMismatch
  | badNumLevels
  | badGridJump
  deriving DecidableEq, Repr

/-- A Python value as iterated by `Morris.flatten`: either a string (treated
as an atomic leaf because of the `basestring` guard) or a list of such
values. -/
inductive NestedList where
  | leaf (s : String)
  | node (xs : List NestedList)
  deriving Repr

/-- Embeds `Morris.flatten`: iterate over the elements of the argument; a
list element is recursively flattened (`yield sub`), any other element (a
string) is yielded as is, in left-to-right order. -/
def flatten : List NestedList → List String
  | [] => []
  | NestedList.node xs :: rest => flatten xs ++ flatten rest
  | NestedList.leaf s :: rest => s :: flatten rest

/-- The leaf strings of one nested value in depth-first left-to-right order,
written independently of `flatten` (map and join instead of an interleaved
accumulation). -/
def leavesOf : NestedList → List String
  | NestedList.leaf s => [s]
  | NestedList.node xs =>
    (xs.attach.map (fun (y : { x : NestedList // x ∈ xs }) =>
      have h : sizeOf y.1 < 1 + sizeOf xs := by
        have hm := List.sizeOf_lt_of_mem y.2
        omega
      leavesOf y.1)).flatten

/-- Design matrices (numpy arrays of floats, embedded as rationals). -/
abbrev Mat := List (List Rat)

/-- The `np.matrix` returned by `Morris.compute_groups`: a shape together
with an entry function (numpy array indexing `output[column, row]`). -/
structure GroupMatrix where
  rows : Nat
  cols : Nat
  entry : Nat → Nat → Nat

/-- The result of `read_param_file`: factor count, bounds and names. -/
structure ParamFile where
  num_vars : Nat
  bounds : List (Rat × Rat)
  names : List String

/-- Embeds `dict([(x,i) for (i,x) in enumerate(actual_names)])`: the pairs
are inserted in order, so for a duplicated name the LAST index wins. -/
def indicesOf (names : List String) : String → Option Nat :=
  names.enum.foldl (fun f p => fun y => if y = p.2 then some p.1 else f y)
    (fun _ => none)

/-- One numpy assignment `output[c, r] = 1` on an entry function. -/
def setOne (M : Nat → Nat → Nat) (c r : Nat) : Nat → Nat → Nat :=
  fun a b => if a = c ∧ b = r then 1 else M a b

/-- Embeds `Morris.compute_groups` on the parsed group file
(`gf['groups']`, a list of `(group_name, member_names)` pairs): flatten the
member lists, check every flattened name against the parameter names (else
raise), then fill a zero matrix of shape `(num_vars, len(group_names))`
setting `output[indices[param], row] = 1` for each member of each enumerated
group row. -/
def compute_groups (parameter_names : List String) (num_vars : Nat)
    (group_rows : List (String × List String)) : Except ConfigError GroupMatrix :=
  let group_names := group_rows.map (fun g => g.1)
  let param_names_from_gf := group_rows.map (fun g => g.2)
  let param_names_to_check :=
    flatten (param_names_from_gf.map (fun ms => NestedList.node (ms.map NestedList.leaf)))
  let actual_names := parameter_names
  if !(param_names_to_check.all (fun x => actual_names.contains x)) then
    Except.error ConfigError.groupParamMismatch
  else
    let indices := indicesOf actual_names
    let M0 : Nat → Nat → Nat := fun _ _ => 0
    let M := param_names_from_gf.enum.foldl
      (fun acc rg => rg.2.foldl
        (fun acc2 param => setOne acc2 ((indices param).getD 0) rg.1) acc) M0
    Except.ok ⟨num_vars, group_names.length, M⟩

/-- Sum of one row of a `GroupMatrix` across its columns. -/
def row_sum (M : GroupMatrix) (i : Nat) : Nat :=
  ((List.range M.cols).map (fun j => M.entry i j)).sum

/-- Embeds the `optimal_trajectories` validation block of `Morris.__init__`
(lines 101-109): when a count is requested, the three checks run in order
and the first failing one raises. -/
def check_optimal_trajectories (optimal_trajectories : Option Int)
    (samples : Int) : Except ConfigError Unit :=
  match optimal_trajectories with
  | none => Except.ok ()
  | some m =>
    if m ≥ samples then Except.error ConfigError.optimalGEQSamples
    else if m > 10 then Except.error ConfigError.optimalGT10
    else if m ≤ 1 then Except.error ConfigError.optimalLEQ1
    else Except.ok ()

/-- Modelled from the spec: the Trajectory Builder contract (spec section
4.1) used by `morris_oat.sample` and `morris_groups.sample`, whose code is
not part of the analysed source tree: `num_levels` (p) must be an even
integer at least 2 and `grid_jump` a positive integer strictly below p;
violations signal a `ConfigurationError`. -/
def builder_check (num_levels grid_jump : Int) : Except ConfigError Unit :=
  if ¬(2 ≤ num_levels ∧ num_levels % 2 = 0) then
    Except.error ConfigError.badNumLevels
  else if ¬(0 < grid_jump ∧ grid_jump < num_levels) then
    Except.error ConfigError.badGridJump
  else Except.ok ()

/-- Abstract generator for `morris_oat.sample` after validation (the random
trajectory construction itself, irrelevant to the claims below). -/
abbrev GenOat := Int → ParamFile → Int → Int → Mat

/-- Abstract generator for `morris_groups.sample` after validation. -/
abbrev GenGroups := Int → GroupMatrix → Int → Int → Mat

/-- Abstract `morris_optimal.find_optimum_trajectories` (pure selection). -/
abbrev FindOpt := Mat → Int → Nat → Int → Mat

/-- Modelled from the spec: `morris_oat.sample` (missing from the source
tree) validates the grid parameters per spec section 4.1 and then builds the
candidate sample; the construction itself is the abstract `gen`. -/
def morris_oat_sample (gen : GenOat) (samples : Int) (pf : ParamFile)
    (num_levels grid_jump : Int) : Except ConfigError Mat :=
  match builder_check num_levels grid_jump with
  | Except.error e => Except.error e
  | Except.ok _ => Except.ok (gen samples pf num_levels grid_jump)

/-- Modelled from the spec: `morris_groups.sample` (missing from the source
tree) applies the same trajectory-construction algorithm as section 4.1,
hence the same validation, over group-space dimensions. -/
def morris_groups_sample (gen : GenGroups) (samples : Int) (groups : GroupMatrix)
    (num_levels grid_jump : Int) : Except ConfigError Mat :=
  match builder_check num_levels grid_jump with
  | Except.error e => Except.error e
  | Except.ok _ => Except.ok (gen samples groups num_levels grid_jump)

/-- Embeds `Morris.create_sample`: build the OAT sample; when an optimal
count is set, additionally run the optimizer on it. -/
def create_sample (gen : GenOat) (find_opt : FindOpt) (pf : ParamFile)
    (samples num_levels grid_jump : Int) (optimal_trajectories : Option Int) :
    Except ConfigError Mat :=
  match optimal_trajectories with
  | none => morris_oat_sample gen samples pf num_levels grid_jump
  | some m =>
    match morris_oat_sample gen samples pf num_levels grid_jump with
    | Except.error e => Except.error e
    | Except.ok sample => Except.ok (find_opt sample samples pf.num_vars m)

/-- Embeds `Morris.create_sample_with_groups`: build the grouped sample;
when an optimal count is set, additionally run the optimizer on it. -/
def create_sample_with_groups (gen : GenGroups) (find_opt : FindOpt)
    (groups : GroupMatrix) (num_vars : Nat) (samples num_levels grid_jump : Int)
    (optimal_trajectories : Option Int) : Except ConfigError Mat :=
  match morris_groups_sample gen samples groups num_levels grid_jump with
  | Except.error e => Except.error e
  | Except.ok out =>
    match optimal_trajectories with
    | none => Except.ok out
    | some m => Except.ok (find_opt out samples num_vars m)

/-- The state of a fully constructed `Morris` object. -/
structure MorrisState where
  parameter_names : List String
  num_vars : Nat
  bounds : List (Rat × Rat)
  samples : Int
  num_levels : Int
  grid_jump : Int
  groups : Option GroupMatrix
  optimal_trajectories : Option Int
  output_sample : Mat

/-- Embeds `Morris.__init__` on already-parsed inputs: store the arguments,
compute the group matrix when a group file is given (which may raise), run
the optimal-trajectory checks (which may raise), then create the sample with
or without groups (which may raise); the trajectory generators and the
optimizer are passed in as abstract functions. -/
def morris_init (gen : GenOat) (gen_g : GenGroups) (find_opt : FindOpt)
    (pf : ParamFile) (samples num_levels grid_jump : Int)
    (group_rows : Option (List (String × List String)))
    (optimal_trajectories : Option Int) : Except ConfigError MorrisState :=
  let groupsE : Except ConfigError (Option GroupMatrix) :=
    match group_rows with
    | some gf =>
      match compute_groups pf.names pf.num_vars gf with
      | Except.error e => Except.error e
      | Except.ok g => Except.ok (some g)
    | none => Except.ok none
  match groupsE with
  | Except.error e => Except.error e
  | Except.ok groups =>
    match check_optimal_trajectories optimal_trajectories samples with
    | Except.error e => Except.error e
    | Except.ok _ =>
      let sampleE :=
        match groups with
        | none =>
          create_sample gen find_opt pf samples num_levels grid_jump
            optimal_trajectories
        | some g =>
          create_sample_with_groups gen_g find_opt g pf.num_vars samples
            num_levels grid_jump optimal_trajectories
      match sampleE with
      | Except.error e => Except.error e
      | Except.ok out =>
        Except.ok
          { parameter_names := pf.names
            num_vars := pf.num_vars
            bounds := pf.bounds
            samples := samples
            num_levels := num_levels
            grid_jump := grid_jump
            groups := groups
            optimal_trajectories := optimal_trajectories
            output_sample := out }

/-- A heap of numpy arrays: mutation of one array is a `set` at its
reference, `.copy()` is an allocation of a fresh cell. -/
abbrev Heap := List Mat

/-- The base `Sample` object: its bounds and the heap reference held by the
`output_sample` attribute. -/
structure SampleObj where
  bounds : List (Rat × Rat)
  output_sample : Nat

/-- Modelled from the spec: `scale_samples` (in `SALib.util`, missing from
the source tree) rescales each column by its factor's `(low, high)` bound,
`x` becoming `low + x * (high - low)`, mutating the array in place; the
returned value is the new contents of the mutated array. -/
def scale_samples (m : Mat) (bounds : List (Rat × Rat)) : Mat :=
  m.map (fun row => (row.zip bounds).map (fun xb => xb.2.1 + xb.1 * (xb.2.2 - xb.2.1)))

/-- Embeds `Sample.get_input_sample_unscaled`: return the array currently
referenced by `self.output_sample`. -/
def get_input_sample_unscaled (h : Heap) (s : SampleObj) : Mat :=
  h.getD s.output_sample []

/-- Embeds `Sample.get_input_sample_scaled`: `scaled_samples =
self.output_sample.copy()` allocates a fresh heap cell holding a copy,
`scale_samples(scaled_samples, self.bounds)` mutates that fresh cell in
place, and the reference to it is returned with the updated heap. -/
def get_input_sample_scaled (h : Heap) (s : SampleObj) : Heap × Nat :=
  let scaled_samples := h.getD s.output_sample []
  let r := h.length
  ((h ++ [scaled_samples]).set r (scale_samples scaled_samples s.bounds), r)

end SALib

namespace SALib

section helper_lemmas

variable {gen : GenOat} {gen_g : GenGroups} {find_opt : FindOpt} {pf : ParamFile}
variable {samples num_levels grid_jump : Int} {ot : Option Int} {e : ConfigError}

lemma compute_groups_error_eq {names : List String} {nv : Nat}
    {rows : List (String × List String)}
    (h : compute_groups names nv rows = Except.error e) :
    e = ConfigError.groupParamMismatch := by
  unfold compute_groups at h
  dsimp only at h
  split at h
  · injection h with h2
    exact h2.symm
  · simp at h

lemma morris_init_group_error {gf : List (String × List String)}
    (hcg : compute_groups pf.names pf.num_vars gf = Except.error e) :
    morris_init gen gen_g find_opt pf samples num_levels grid_jump (some gf) ot =
      Except.error e := by
  simp only [morris_init, hcg]

lemma morris_init_check_error_none
    (hck : check_optimal_trajectories ot samples = Except.error e) :
    morris_init gen gen_g find_opt pf samples num_levels grid_jump none ot =
      Except.error e := by
  simp only [morris_init, hck]

lemma morris_init_check_error_some {gf : List (String × List String)} {g : GroupMatrix}
    (hcg : compute_groups pf.names pf.num_vars gf = Except.ok g)
    (hck : check_optimal_trajectories ot samples = Except.error e) :
    morris_init gen gen_g find_opt pf samples num_levels grid_jump (some gf) ot =
      Except.error e := by
  simp only [morris_init, hcg, hck]

end helper_lemmas

end SALib

namespace SALib

section helper_lemmas2

variable {gen : GenOat} {gen_g : GenGroups} {find_opt : FindOpt} {pf : ParamFile}
variable {samples num_levels grid_jump : Int} {m : Int} {ot : Option Int} {e : ConfigError}

lemma check_geq (h : m ≥ samples) :
    check_optimal_trajectories (some m) samples =
      Except.error ConfigError.optimalGEQSamples := by
  simp only [check_optimal_trajectories, if_pos h]

lemma check_gt10 (h1 : m < samples) (h2 : m > 10) :
    check_optimal_trajectories (some m) samples =
      Except.error ConfigError.optimalGT10 := by
  simp only [check_optimal_trajectories]
  rw [if_neg (not_le.mpr h1), if_pos h2]

lemma check_leq1 (h1 : m < samples) (h2 : m ≤ 10) (h3 : m ≤ 1) :
    check_optimal_trajectories (some m) samples =
      Except.error ConfigError.optimalLEQ1 := by
  simp only [check_optimal_trajectories]
  rw [if_neg (not_le.mpr h1), if_neg (not_lt.mpr h2), if_pos h3]

lemma check_ok_of (h1 : 1 < m) (h2 : m < samples) (h3 : m ≤ 10) :
    check_optimal_trajectories (some m) samples = Except.ok () := by
  simp only [check_optimal_trajectories]
  rw [if_neg (not_le.mpr h2), if_neg (not_lt.mpr h3), if_neg (not_le.mpr h1)]

lemma builder_check_bad
    (h : ¬(2 ≤ num_levels ∧ num_levels % 2 = 0) ∨
         ¬(0 < grid_jump ∧ grid_jump < num_levels)) :
    ∃ e, builder_check num_levels grid_jump = Except.error e := by
  unfold builder_check
  by_cases h1 : (2 ≤ num_levels ∧ num_levels % 2 = 0)
  · have h2 := h.resolve_left (not_not_intro h1)
    exact ⟨ConfigError.badGridJump, by rw [if_neg (not_not_intro h1), if_pos h2]⟩
  · exact ⟨ConfigError.badNumLevels, by rw [if_pos h1]⟩

lemma builder_check_error_cases (h : builder_check num_levels grid_jump = Except.error e) :
    e = ConfigError.badNumLevels ∨ e = ConfigError.badGridJump := by
  unfold builder_check at h
  split at h
  · injection h with h2; exact Or.inl h2.symm
  · split at h
    · injection h with h2; exact Or.inr h2.symm
    · simp at h

lemma morris_oat_sample_error_cases
    (h : morris_oat_sample gen samples pf num_levels grid_jump = Except.error e) :
    e = ConfigError.badNumLevels ∨ e = ConfigError.badGridJump := by
  unfold morris_oat_sample at h
  split at h
  · rename_i e2 heq
    injection h with h2
    exact h2 ▸ builder_check_error_cases heq
  · simp at h

lemma morris_groups_sample_error_cases {g : GroupMatrix}
    (h : morris_groups_sample gen_g samples g num_levels grid_jump = Except.error e) :
    e = ConfigError.badNumLevels ∨ e = ConfigError.badGridJump := by
  unfold morris_groups_sample at h
  split at h
  · rename_i e2 heq
    injection h with h2
    exact h2 ▸ builder_check_error_cases heq
  · simp at h

lemma create_sample_error_cases
    (h : create_sample gen find_opt pf samples num_levels grid_jump ot = Except.error e) :
    e = ConfigError.badNumLevels ∨ e = ConfigError.badGridJump := by
  unfold create_sample at h
  cases ot with
  | none => exact morris_oat_sample_error_cases h
  | some m =>
    dsimp only at h
    split at h
    · rename_i e2 heq
      injection h with h2
      exact h2 ▸ morris_oat_sample_error_cases heq
    · simp at h

lemma create_sample_with_groups_error_cases {g : GroupMatrix} {nv : Nat}
    (h : create_sample_with_groups gen_g find_opt g nv samples num_levels grid_jump ot =
      Except.error e) :
    e = ConfigError.badNumLevels ∨ e = ConfigError.badGridJump := by
  unfold create_sample_with_groups at h
  split at h
  · rename_i e2 heq
    injection h with h2
    exact h2 ▸ morris_groups_sample_error_cases heq
  · split at h <;> simp at h

lemma morris_init_error_inv {grows : Option (List (String × List String))}
    (h : morris_init gen gen_g find_opt pf samples num_levels grid_jump grows ot =
      Except.error e) :
    e = ConfigError.groupParamMismatch ∨
      check_optimal_trajectories ot samples = Except.error e ∨
      e = ConfigError.badNumLevels ∨ e = ConfigError.badGridJump := by
  unfold morris_init at h
  cases grows with
  | none =>
    dsimp only at h
    split at h
    · rename_i e2 heq
      injection h with h2
      exact Or.inr (Or.inl (h2 ▸ heq))
    · split at h
      · rename_i e2 heq
        injection h with h2
        exact Or.inr (Or.inr (h2 ▸ create_sample_error_cases heq))
      · simp at h
  | some gf =>
    dsimp only at h
    cases hcg : compute_groups pf.names pf.num_vars gf with
    | error e3 =>
      rw [hcg] at h
      dsimp only at h
      injection h with h2
      exact Or.inl (h2 ▸ compute_groups_error_eq hcg)
    | ok g =>
      rw [hcg] at h
      dsimp only at h
      split at h
      · rename_i e2 heq2
        injection h with h2
        exact Or.inr (Or.inl (h2 ▸ heq2))
      · split at h
        · rename_i e2 heq2
          injection h with h2
          exact Or.inr (Or.inr (h2 ▸ create_sample_with_groups_error_cases heq2))
        · simp at h

end helper_lemmas2

end SALib

namespace SALib

section helper_lemmas3

variable {gen : GenOat} {gen_g : GenGroups} {find_opt : FindOpt} {pf : ParamFile}
variable {samples num_levels grid_jump : Int} {m : Int} {ot : Option Int} {e : ConfigError}

lemma check_error_of_viol (h : m ≥ samples ∨ m > 10 ∨ m ≤ 1) :
    ∃ e, check_optimal_trajectories (some m) samples = Except.error e := by
  by_cases h1 : m ≥ samples
  · exact ⟨_, check_geq h1⟩
  · have h1b : m < samples := lt_of_not_ge h1
    by_cases h2 : m > 10
    · exact ⟨_, check_gt10 h1b h2⟩
    · have h3 : m ≤ 1 := by
        rcases h with h | h | h
        · exact absurd h h1
        · exact absurd h h2
        · exact h
      exact ⟨_, check_leq1 h1b (not_lt.mp h2) h3⟩

lemma morris_init_error_of_check {grows : Option (List (String × List String))}
    (hck : check_optimal_trajectories ot samples = Except.error e) :
    ∃ e2, morris_init gen gen_g find_opt pf samples num_levels grid_jump grows ot =
      Except.error e2 := by
  cases grows with
  | none => exact ⟨e, morris_init_check_error_none hck⟩
  | some gf =>
    cases hcg : compute_groups pf.names pf.num_vars gf with
    | error e3 => exact ⟨e3, morris_init_group_error hcg⟩
    | ok g => exact ⟨e, morris_init_check_error_some hcg hck⟩

lemma create_sample_builder_error (hb : builder_check num_levels grid_jump = Except.error e) :
    create_sample gen find_opt pf samples num_levels grid_jump ot = Except.error e := by
  unfold create_sample morris_oat_sample
  cases ot <;> simp only [hb]

lemma create_sample_with_groups_builder_error {g : GroupMatrix} {nv : Nat}
    (hb : builder_check num_levels grid_jump = Except.error e) :
    create_sample_with_groups gen_g find_opt g nv samples num_levels grid_jump ot =
      Except.error e := by
  unfold create_sample_with_groups morris_groups_sample
  simp only [hb]

lemma morris_init_builder_none
    (hck : check_optimal_trajectories ot samples = Except.ok ())
    (hb : builder_check num_levels grid_jump = Except.error e) :
    morris_init gen gen_g find_opt pf samples num_levels grid_jump none ot =
      Except.error e := by
  have hcs : create_sample gen find_opt pf samples num_levels grid_jump ot =
      Except.error e := create_sample_builder_error hb
  simp only [morris_init, hck, hcs]

lemma morris_init_builder_some {gf : List (String × List String)} {g : GroupMatrix}
    (hcg : compute_groups pf.names pf.num_vars gf = Except.ok g)
    (hck : check_optimal_trajectories ot samples = Except.ok ())
    (hb : builder_check num_levels grid_jump = Except.error e) :
    morris_init gen gen_g find_opt pf samples num_levels grid_jump (some gf) ot =
      Except.error e := by
  have hcs : create_sample_with_groups gen_g find_opt g pf.num_vars samples
      num_levels grid_jump ot = Except.error e :=
    create_sample_with_groups_builder_error hb
  simp only [morris_init, hcg, hck, hcs]

end helper_lemmas3

/-- Claim C1: for every construction of a Morris sample with a requested
optimal-trajectory count `m`: if `m ≥ samples` a configuration error is
raised, if `m > 10` a configuration error is raised, if `m ≤ 1` a
configuration error is raised, and if `1 < m < samples` with `m ≤ 10` none
of the three optimal-trajectory precondition errors is raised. -/
theorem optimal_trajectory_preconditions (gen : GenOat) (gen_g : GenGroups)
    (find_opt : FindOpt) (pf : ParamFile) (samples num_levels grid_jump : Int)
    (grows : Option (List (String × List String))) (m : Int) :
    (m ≥ samples → ∃ e, morris_init gen gen_g find_opt pf samples num_levels
      grid_jump grows (some m) = Except.error e) ∧
    (m > 10 → ∃ e, morris_init gen gen_g find_opt pf samples num_levels
      grid_jump grows (some m) = Except.error e) ∧
    (m ≤ 1 → ∃ e, morris_init gen gen_g find_opt pf samples num_levels
      grid_jump grows (some m) = Except.error e) ∧
    (1 < m → m < samples → m ≤ 10 →
      (morris_init gen gen_g find_opt pf samples num_levels grid_jump grows
        (some m) ≠ Except.error ConfigError.optimalGEQSamples ∧
       morris_init gen gen_g find_opt pf samples num_levels grid_jump grows
        (some m) ≠ Except.error ConfigError.optimalGT10 ∧
       morris_init gen gen_g find_opt pf samples num_levels grid_jump grows
        (some m) ≠ Except.error ConfigError.optimalLEQ1)) := by
  refine ⟨?_, ?_, ?_, ?_⟩
  · intro h
    obtain ⟨e, hck⟩ := check_error_of_viol (Or.inl h)
    exact morris_init_error_of_check hck
  · intro h
    obtain ⟨e, hck⟩ := check_error_of_viol (Or.inr (Or.inl h))
    exact morris_init_error_of_check hck
  · intro h
    obtain ⟨e, hck⟩ := check_error_of_viol (Or.inr (Or.inr h))
    exact morris_init_error_of_check hck
  · intro h1 h2 h3
    have hck := check_ok_of h1 h2 h3
    refine ⟨?_, ?_, ?_⟩ <;>
      · intro habs
        rcases morris_init_error_inv habs with h | h | h | h
        · exact ConfigError.noConfusion h
        · rw [hck] at h
          exact Except.noConfusion h
        · exact ConfigError.noConfusion h
        · exact ConfigError.noConfusion h

/-- Witness for claim C1 at concrete inputs: `m = 12 ≥ samples = 10` raises,
and `m = 5` with `samples = 10` raises none of the three errors. -/
theorem optimal_trajectory_preconditions_witness :
    (∃ e, morris_init (fun _ _ _ _ => ([] : Mat)) (fun _ _ _ _ => ([] : Mat))
      (fun s _ _ _ => s) ⟨2, [(0, 1), (0, 1)], ["a", "b"]⟩ 10 4 2 none (some 12) =
        Except.error e) ∧
    (morris_init (fun _ _ _ _ => ([] : Mat)) (fun _ _ _ _ => ([] : Mat))
      (fun s _ _ _ => s) ⟨2, [(0, 1), (0, 1)], ["a", "b"]⟩ 10 4 2 none (some 5) ≠
        Except.error ConfigError.optimalGEQSamples) :=
  ⟨(optimal_trajectory_preconditions _ _ _ _ 10 4 2 none 12).1 (by decide),
   ((optimal_trajectory_preconditions _ _ _ _ 10 4 2 none 5).2.2.2 (by decide)
      (by decide) (by decide)).1⟩

/-- Claim C10: the three optimal-trajectory checks are applied in the fixed
order `m ≥ samples`, then `m > 10`, then `m ≤ 1`, each raising its own error
only when the earlier checks pass; in particular `m = 11` with
`samples ≤ 11` raises the fewer-than-samples error, not the
greater-than-ten error. -/
theorem optimal_trajectory_check_order (gen : GenOat) (gen_g : GenGroups)
    (find_opt : FindOpt) (pf : ParamFile) (samples num_levels grid_jump m : Int) :
    (m ≥ samples → morris_init gen gen_g find_opt pf samples num_levels
      grid_jump none (some m) = Except.error ConfigError.optimalGEQSamples) ∧
    (m < samples → m > 10 → morris_init gen gen_g find_opt pf samples num_levels
      grid_jump none (some m) = Except.error ConfigError.optimalGT10) ∧
    (m < samples → m ≤ 10 → m ≤ 1 → morris_init gen gen_g find_opt pf samples
      num_levels grid_jump none (some m) = Except.error ConfigError.optimalLEQ1) ∧
    (m = 11 → samples ≤ 11 → morris_init gen gen_g find_opt pf samples num_levels
      grid_jump none (some m) = Except.error ConfigError.optimalGEQSamples) := by
  refine ⟨?_, ?_, ?_, ?_⟩
  · intro h
    exact morris_init_check_error_none (check_geq h)
  · intro h1 h2
    exact morris_init_check_error_none (check_gt10 h1 h2)
  · intro h1 h2 h3
    exact morris_init_check_error_none (check_leq1 h1 h2 h3)
  · intro h1 h2
    exact morris_init_check_error_none (check_geq (by omega))

/-- Witness for claim C10: `m = 11`, `samples = 5` raises the
fewer-than-samples error (not the greater-than-ten error), while `m = 12`,
`samples = 20` raises the greater-than-ten error. -/
theorem optimal_trajectory_check_order_witness :
    (morris_init (fun _ _ _ _ => ([] : Mat)) (fun _ _ _ _ => ([] : Mat))
      (fun s _ _ _ => s) ⟨2, [(0, 1), (0, 1)], ["a", "b"]⟩ 5 4 2 none (some 11) =
        Except.error ConfigError.optimalGEQSamples) ∧
    (morris_init (fun _ _ _ _ => ([] : Mat)) (fun _ _ _ _ => ([] : Mat))
      (fun s _ _ _ => s) ⟨2, [(0, 1), (0, 1)], ["a", "b"]⟩ 20 4 2 none (some 12) =
        Except.error ConfigError.optimalGT10) :=
  ⟨(optimal_trajectory_check_order _ _ _ _ 5 4 2 11).1 (by decide),
   (optimal_trajectory_check_order _ _ _ _ 20 4 2 12).2.1 (by decide) (by decide)⟩

end SALib

namespace SALib

/-- Claim C2: for every construction of a Morris sample, if `num_levels` is
not an even integer at least 2, or `grid_jump` is not a positive integer
strictly below `num_levels`, a configuration error is raised (the
validation itself sits in the spec-modelled trajectory builders). -/
theorem grid_parameter_validation (gen : GenOat) (gen_g : GenGroups)
    (find_opt : FindOpt) (pf : ParamFile) (samples num_levels grid_jump : Int)
    (grows : Option (List (String × List String))) (ot : Option Int)
    (h : ¬(2 ≤ num_levels ∧ num_levels % 2 = 0) ∨
         ¬(0 < grid_jump ∧ grid_jump < num_levels)) :
    ∃ e, morris_init gen gen_g find_opt pf samples num_levels grid_jump grows ot =
      Except.error e := by
  obtain ⟨eb, hb⟩ := builder_check_bad h
  cases grows with
  | none =>
    cases hck : check_optimal_trajectories ot samples with
    | error e2 => exact ⟨e2, morris_init_check_error_none hck⟩
    | ok u =>
      cases u
      exact ⟨eb, morris_init_builder_none hck hb⟩
  | some gf =>
    cases hcg : compute_groups pf.names pf.num_vars gf with
    | error e3 => exact ⟨e3, morris_init_group_error hcg⟩
    | ok g =>
      cases hck : check_optimal_trajectories ot samples with
      | error e2 => exact ⟨e2, morris_init_check_error_some hcg hck⟩
      | ok u =>
        cases u
        exact ⟨eb, morris_init_builder_some hcg hck hb⟩

/-- Witness for claim C2: `num_levels = 3` (odd) raises a configuration
error. -/
theorem grid_parameter_validation_witness :
    ∃ e, morris_init (fun _ _ _ _ => ([] : Mat)) (fun _ _ _ _ => ([] : Mat))
      (fun s _ _ _ => s) ⟨2, [(0, 1), (0, 1)], ["a", "b"]⟩ 5 3 2 none none =
        Except.error e :=
  grid_parameter_validation _ _ _ _ 5 3 2 none none (Or.inl (by decide))

/-- Claim C8: when the requested optimal-trajectory count violates a
precondition, the constructor fails with an error that does not depend on
the trajectory generators or the optimizer at all: no sample creation step
runs and no output sample is produced. -/
theorem precondition_failure_before_sampling (pf : ParamFile)
    (samples num_levels grid_jump : Int)
    (grows : Option (List (String × List String))) (m : Int)
    (h : m ≥ samples ∨ m > 10 ∨ m ≤ 1) :
    ∃ e, ∀ (gen : GenOat) (gen_g : GenGroups) (find_opt : FindOpt),
      morris_init gen gen_g find_opt pf samples num_levels grid_jump grows
        (some m) = Except.error e := by
  cases grows with
  | none =>
    obtain ⟨e, hck⟩ := check_error_of_viol h
    exact ⟨e, fun gen gen_g find_opt => morris_init_check_error_none hck⟩
  | some gf =>
    cases hcg : compute_groups pf.names pf.num_vars gf with
    | error e3 => exact ⟨e3, fun gen gen_g find_opt => morris_init_group_error hcg⟩
    | ok g =>
      obtain ⟨e, hck⟩ := check_error_of_viol h
      exact ⟨e, fun gen gen_g find_opt => morris_init_check_error_some hcg hck⟩

/-- Witness for claim C8: `m = 0` fails the same way for every generator. -/
theorem precondition_failure_before_sampling_witness :
    ∃ e, ∀ (gen : GenOat) (gen_g : GenGroups) (find_opt : FindOpt),
      morris_init gen gen_g find_opt ⟨2, [(0, 1), (0, 1)], ["a", "b"]⟩ 5 4 2 none
        (some 0) = Except.error e :=
  precondition_failure_before_sampling _ 5 4 2 none 0 (by decide)

/-- Claim C9: `flatten` yields exactly the leaf strings of an arbitrarily
nested list in left-to-right depth-first order; a string is an atomic leaf
(one `NestedList.leaf`), never iterated over. -/
theorem flatten_yields_leaves :
    ∀ (l : List NestedList), flatten l = (l.map leavesOf).flatten
  | [] => by simp [flatten]
  | NestedList.leaf s :: rest => by
    rw [flatten, flatten_yields_leaves rest]
    simp [leavesOf]
  | NestedList.node xs :: rest => by
    rw [flatten, flatten_yields_leaves xs, flatten_yields_leaves rest]
    simp [leavesOf]

end SALib

namespace SALib

/-- Claim C7: `get_input_sample_scaled` scales a fresh copy, so the stored
`output_sample` array is unchanged and `get_input_sample_unscaled` returns
the same array before and after the call. -/
theorem scaling_leaves_output_sample_unchanged (h : Heap) (s : SampleObj)
    (href : s.output_sample < h.length) :
    get_input_sample_unscaled (get_input_sample_scaled h s).1 s =
      get_input_sample_unscaled h s := by
  unfold get_input_sample_scaled get_input_sample_unscaled
  dsimp only
  rw [List.getD_eq_getElem?_getD, List.getD_eq_getElem?_getD]
  rw [List.getElem?_set_ne (Nat.ne_of_gt href)]
  rw [List.getElem?_append]
  rw [if_pos href]

/-- Witness for claim C7 on a one-array heap. -/
theorem scaling_leaves_output_sample_unchanged_witness :
    (0 : Nat) < 1 ∧
      get_input_sample_unscaled
        (get_input_sample_scaled [[[0, 1]]] ⟨[(0, 2)], 0⟩).1 ⟨[(0, 2)], 0⟩ =
        get_input_sample_unscaled [[[0, 1]]] ⟨[(0, 2)], 0⟩ :=
  ⟨by decide, scaling_leaves_output_sample_unchanged [[[0, 1]]] ⟨[(0, 2)], 0⟩ (by decide)⟩

end SALib

namespace SALib

lemma flatten_leaf_list (ms : List String) :
    flatten (ms.map NestedList.leaf) = ms := by
  induction ms with
  | nil => simp [flatten]
  | cons q t ih => simp [flatten, ih]

lemma flatten_node_list (ls : List (List String)) :
    flatten (ls.map (fun ms => NestedList.node (ms.map NestedList.leaf))) =
      ls.flatten := by
  induction ls with
  | nil => simp [flatten]
  | cons q t ih => simp [flatten, flatten_leaf_list, ih]

lemma fold_params_entry (idx : String → Option Nat) (j : Nat) (ps : List String)
    (M : Nat → Nat → Nat) (a b : Nat) :
    (ps.foldl (fun acc p => setOne acc ((idx p).getD 0) j) M) a b =
      if b = j ∧ ∃ p ∈ ps, (idx p).getD 0 = a then 1 else M a b := by
  induction ps generalizing M with
  | nil => simp
  | cons q t ih =>
    rw [List.foldl_cons, ih]
    by_cases hb : b = j
    · subst hb
      by_cases ht : ∃ p ∈ t, (idx p).getD 0 = a
      · have hR : ∃ p ∈ q :: t, (idx p).getD 0 = a := by
          obtain ⟨p, hp, he⟩ := ht
          exact ⟨p, List.mem_cons_of_mem _ hp, he⟩
        simp [ht, hR]
      · by_cases hq : (idx q).getD 0 = a
        · have hR : ∃ p ∈ q :: t, (idx p).getD 0 = a :=
            ⟨q, List.mem_cons_self _ _, hq⟩
          have hq2 : a = (idx q).getD 0 := hq.symm
          simp [ht, hR, setOne, hq2]
        · have hR : ¬ ∃ p ∈ q :: t, (idx p).getD 0 = a := by
            rintro ⟨p, hp, he⟩
            rcases List.mem_cons.mp hp with rfl | hp2
            · exact hq he
            · exact ht ⟨p, hp2, he⟩
          have hq2 : ¬ a = (idx q).getD 0 := fun hh => hq hh.symm
          simp [ht, hR, setOne, hq2, hq]
    · have hR : ¬ (b = j ∧ ∃ p ∈ q :: t, (idx p).getD 0 = a) := fun hh => hb hh.1
      have hT : ¬ (b = j ∧ ∃ p ∈ t, (idx p).getD 0 = a) := fun hh => hb hh.1
      simp [hR, hT, setOne, hb]

lemma fold_rows_entry (idx : String → Option Nat)
    (rs : List (Nat × List String)) (M : Nat → Nat → Nat) (a b : Nat) :
    (rs.foldl (fun acc rg => rg.2.foldl
        (fun acc2 p => setOne acc2 ((idx p).getD 0) rg.1) acc) M) a b =
      if ∃ rg ∈ rs, b = rg.1 ∧ ∃ p ∈ rg.2, (idx p).getD 0 = a then 1
      else M a b := by
  induction rs generalizing M with
  | nil => simp
  | cons r t ih =>
    rw [List.foldl_cons, ih, fold_params_entry]
    by_cases hr : b = r.1 ∧ ∃ p ∈ r.2, (idx p).getD 0 = a
    · have hR : ∃ rg ∈ r :: t, b = rg.1 ∧ ∃ p ∈ rg.2, (idx p).getD 0 = a :=
        ⟨r, List.mem_cons_self _ _, hr⟩
      by_cases htl : ∃ rg ∈ t, b = rg.1 ∧ ∃ p ∈ rg.2, (idx p).getD 0 = a
      · simp [htl, hR]
      · simp [htl, hR, hr]
    · by_cases htl : ∃ rg ∈ t, b = rg.1 ∧ ∃ p ∈ rg.2, (idx p).getD 0 = a
      · have hR : ∃ rg ∈ r :: t, b = rg.1 ∧ ∃ p ∈ rg.2, (idx p).getD 0 = a := by
          obtain ⟨rg, hm, hp⟩ := htl
          exact ⟨rg, List.mem_cons_of_mem _ hm, hp⟩
        simp [htl, hR]
      · have hR : ¬ ∃ rg ∈ r :: t, b = rg.1 ∧ ∃ p ∈ rg.2, (idx p).getD 0 = a := by
          rintro ⟨rg, hm, hp⟩
          rcases List.mem_cons.mp hm with rfl | hm2
          · exact hr hp
          · exact htl ⟨rg, hm2, hp⟩
        simp [htl, hR, hr]

lemma indicesOf_fold (ps : List (Nat × String)) (f : String → Option Nat)
    (x : String) :
    (ps.foldl (fun g p => fun y => if y = p.2 then some p.1 else g y) f) x =
      match ps.reverse.find? (fun p => x == p.2) with
      | some p => some p.1
      | none => f x := by
  induction ps generalizing f with
  | nil => simp
  | cons q t ih =>
    rw [List.foldl_cons, ih]
    rw [List.reverse_cons, List.find?_append]
    cases hf : t.reverse.find? (fun p => x == p.2) with
    | some p => simp [Option.or]
    | none =>
      by_cases hx : x = q.2
      · rw [List.find?_cons_of_pos _ (by simp [hx])]
        simp [Option.or, hx]
      · rw [List.find?_cons_of_neg _ (by simp [hx])]
        simp [Option.or, hx]

end SALib

namespace SALib

lemma indicesOf_eq_some (names : List String) (hnd : names.Nodup) {i : Nat}
    (hi : i < names.length) :
    indicesOf names (names.getD i "") = some i := by
  have hx : names[i]? = some (names.getD i "") := by
    rw [List.getElem?_eq_getElem hi, List.getD_eq_getElem?_getD,
      List.getElem?_eq_getElem hi]
    rfl
  have hmem : (i, names.getD i "") ∈ names.enum.reverse := by
    rw [List.mem_reverse]
    exact List.mk_mem_enum_iff_getElem?.mpr hx
  have hs : (names.enum.reverse.find? (fun p => names.getD i "" == p.2)).isSome :=
    List.find?_isSome.mpr ⟨_, hmem, by simp⟩
  obtain ⟨q, hq⟩ := Option.isSome_iff_exists.mp hs
  have hpred := List.find?_some hq
  have hqm := List.mem_of_find?_eq_some hq
  rw [List.mem_reverse] at hqm
  obtain ⟨qi, qx⟩ := q
  have hq2 : names[qi]? = some qx := List.mk_mem_enum_iff_getElem?.mp hqm
  have hqx : names.getD i "" = qx := by simpa using hpred
  have hqi : qi < names.length := by
    rcases List.getElem?_eq_some_iff.mp hq2 with ⟨hh, _⟩
    exact hh
  have hqie : qi = i := List.getElem?_inj hqi hnd (by rw [hq2, hx, hqx])
  subst hqie
  unfold indicesOf
  rw [indicesOf_fold, hq]

lemma indicesOf_getD_eq_iff (names : List String) (hnd : names.Nodup)
    {p : String} (hp : p ∈ names) {i : Nat} (hi : i < names.length) :
    ((indicesOf names p).getD 0 = i) ↔ p = names.getD i "" := by
  obtain ⟨ip, hip, hg⟩ := List.mem_iff_getElem.mp hp
  have hgd : names.getD ip "" = p := by
    rw [List.getD_eq_getElem?_getD, List.getElem?_eq_getElem hip]
    exact hg
  have hidx : indicesOf names p = some ip := by
    rw [← hgd]
    exact indicesOf_eq_some names hnd hip
  rw [hidx, Option.getD_some]
  constructor
  · rintro rfl
    exact hgd.symm
  · intro hpe
    have hxi : names[i]? = some (names.getD i "") := by
      rw [List.getElem?_eq_getElem hi, List.getD_eq_getElem?_getD,
        List.getElem?_eq_getElem hi]
      rfl
    have h1 : names[i]? = some p := by rw [hxi, ← hpe]
    have h2 : names[ip]? = some p := by
      rw [List.getElem?_eq_getElem hip, hg]
    exact List.getElem?_inj hip hnd (h2.trans h1.symm)

end SALib

namespace SALib

lemma compute_groups_spec (names : List String) (nv : Nat)
    (rows : List (String × List String))
    (hval : ∀ r ∈ rows, ∀ x ∈ r.2, x ∈ names) :
    ∃ M, compute_groups names nv rows = Except.ok M ∧ M.rows = nv ∧
      M.cols = rows.length ∧
      ∀ a b, M.entry a b =
        if ∃ rg ∈ (rows.map (fun g => g.2)).enum, b = rg.1 ∧
            ∃ p ∈ rg.2, (indicesOf names p).getD 0 = a
        then 1 else 0 := by
  have hall : ((flatten ((rows.map (fun g => g.2)).map
      (fun ms => NestedList.node (ms.map NestedList.leaf)))).all
        (fun x => names.contains x)) = true := by
    rw [flatten_node_list, List.all_eq_true]
    intro x hx
    rw [List.mem_flatten] at hx
    obtain ⟨l, hl, hxl⟩ := hx
    rw [List.mem_map] at hl
    obtain ⟨r, hr, rfl⟩ := hl
    exact List.elem_iff.mpr (hval r hr x hxl)
  unfold compute_groups
  dsimp only
  have hneg : ¬ ((!((flatten ((rows.map (fun g => g.2)).map
      (fun ms => NestedList.node (ms.map NestedList.leaf)))).all
        (fun x => names.contains x))) = true) := by
    rw [hall]
    decide
  rw [if_neg hneg]
  refine ⟨_, rfl, rfl, by simp, ?_⟩
  intro a b
  dsimp only
  rw [fold_rows_entry]

lemma enum_membership_iff (names : List String)
    (rows : List (String × List String)) (hnd : names.Nodup)
    (hval : ∀ r ∈ rows, ∀ x ∈ r.2, x ∈ names)
    {i j : Nat} (hi : i < names.length) (hj : j < rows.length) :
    (∃ rg ∈ (rows.map (fun g => g.2)).enum, j = rg.1 ∧
      ∃ p ∈ rg.2, (indicesOf names p).getD 0 = i) ↔
      names.getD i "" ∈ (rows.getD j ("", [])).2 := by
  constructor
  · rintro ⟨⟨ri2, rx⟩, hm, rfl, p, hp, hpi⟩
    have hx : (rows.map (fun g => g.2))[j]? = some rx :=
      List.mk_mem_enum_iff_getElem?.mp hm
    rw [List.getElem?_map] at hx
    cases hr : rows[j]? with
    | none => rw [hr] at hx; simp at hx
    | some r =>
      rw [hr] at hx
      simp only [Option.map_some'] at hx
      injection hx with hx
      have hrm : r ∈ rows := List.getElem?_mem hr
      have hpn : p ∈ names := hval r hrm p (by rw [hx]; exact hp)
      have hpe := (indicesOf_getD_eq_iff names hnd hpn hi).mp hpi
      rw [← hpe, List.getD_eq_getElem?_getD, hr, Option.getD_some, hx]
      exact hp
  · intro hmem
    have hjg : rows[j]? = some (rows.getD j ("", [])) := by
      rw [List.getElem?_eq_getElem hj, List.getD_eq_getElem?_getD,
        List.getElem?_eq_getElem hj]
      rfl
    have hin : names.getD i "" ∈ names := by
      rw [List.getD_eq_getElem?_getD, List.getElem?_eq_getElem hi]
      exact List.getElem_mem hi
    refine ⟨(j, (rows.getD j ("", [])).2), ?_, rfl, names.getD i "", hmem, ?_⟩
    · rw [List.mk_mem_enum_iff_getElem?, List.getElem?_map, hjg]
      rfl
    · exact (indicesOf_getD_eq_iff names hnd hin hi).mpr rfl

lemma compute_groups_entry_iff (names : List String) (nv : Nat)
    (rows : List (String × List String)) (hnd : names.Nodup)
    (hval : ∀ r ∈ rows, ∀ x ∈ r.2, x ∈ names) :
    ∃ M, compute_groups names nv rows = Except.ok M ∧ M.rows = nv ∧
      M.cols = rows.length ∧
      (∀ a b, M.entry a b = 0 ∨ M.entry a b = 1) ∧
      (∀ i, i < names.length → ∀ j, j < rows.length →
        M.entry i j = if names.getD i "" ∈ (rows.getD j ("", [])).2 then 1
          else 0) := by
  obtain ⟨M, hM, hr, hc, hent⟩ := compute_groups_spec names nv rows hval
  refine ⟨M, hM, hr, hc, ?_, ?_⟩
  · intro a b
    rw [hent a b]
    split
    · exact Or.inr rfl
    · exact Or.inl rfl
  · intro i hi j hj
    rw [hent i j]
    by_cases h : names.getD i "" ∈ (rows.getD j ("", [])).2
    · rw [if_pos ((enum_membership_iff names rows hnd hval hi hj).mpr h),
        if_pos h]
    · rw [if_neg (fun hc2 =>
        h ((enum_membership_iff names rows hnd hval hi hj).mp hc2)), if_neg h]

end SALib

namespace SALib

lemma sum_map_ite {P : Nat → Prop} [DecidablePred P] (l : List Nat) :
    (l.map (fun j => if P j then (1 : Nat) else 0)).sum =
      (l.filter (fun j => decide (P j))).length := by
  induction l with
  | nil => rfl
  | cons a t ih =>
    by_cases h : P a
    · simp [List.filter_cons, h, ih, Nat.add_comm]
    · simp [List.filter_cons, h, ih]

/-- Claim C3, amended: for a parsed group file whose member names all occur
among pairwise-distinct parameter names, `compute_groups` returns a matrix
of shape `(num_vars, number of group rows)` whose entry `(i, j)` is 1
exactly when the factor at position `i` of the parameter names is a member
of the `j`-th group of the file, and 0 otherwise.  (Without distinctness
the dictionary of name indices keeps only the last position of a repeated
name, see the counterexample.) -/
theorem compute_groups_membership_matrix (names : List String) (nv : Nat)
    (rows : List (String × List String)) (hnd : names.Nodup)
    (hnv : nv = names.length)
    (hval : ∀ r ∈ rows, ∀ x ∈ r.2, x ∈ names) :
    ∃ M, compute_groups names nv rows = Except.ok M ∧ M.rows = nv ∧
      M.cols = rows.length ∧
      ∀ i, i < nv → ∀ j, j < rows.length →
        M.entry i j = if names.getD i "" ∈ (rows.getD j ("", [])).2 then 1
          else 0 := by
  obtain ⟨M, hM, hr, hc, _, hent⟩ :=
    compute_groups_entry_iff names nv rows hnd hval
  exact ⟨M, hM, hr, hc, fun i hi j hj => hent i (hnv ▸ hi) j hj⟩

/-- Witness for the amended claim C3 at a concrete two-group file. -/
theorem compute_groups_membership_matrix_witness :
    List.Nodup ["a", "b", "c"] ∧
    ∃ M, compute_groups ["a", "b", "c"] 3 [("g1", ["a", "b"]), ("g2", ["c"])] =
        Except.ok M ∧ M.rows = 3 ∧ M.cols = 2 ∧
      ∀ i, i < 3 → ∀ j, j < 2 →
        M.entry i j = if ["a", "b", "c"].getD i "" ∈
          ([("g1", ["a", "b"]), ("g2", ["c"])].getD j ("", [])).2 then 1
          else 0 :=
  ⟨by decide, compute_groups_membership_matrix ["a", "b", "c"] 3
    [("g1", ["a", "b"]), ("g2", ["c"])] (by decide) (by decide) (by decide)⟩

/-- Counterexample to claim C3 as stated: with the duplicated parameter
names `["a", "a"]` the factor at position 0 is a member of the only group,
yet the returned matrix has entry `(0, 0) = 0`, because the index
dictionary maps `"a"` to its last position 1. -/
theorem compute_groups_membership_counterexample :
    (["a", "a"].getD 0 "" ∈ ([("g", ["a"])].getD 0 ("", [])).2) ∧
    (∀ r ∈ [("g", ["a"])], ∀ x ∈ r.2, x ∈ ["a", "a"]) ∧
    (compute_groups ["a", "a"] 2 [("g", ["a"])]).map (fun M => M.entry 0 0) =
      Except.ok 0 := by
  refine ⟨by decide, by decide, ?_⟩
  unfold compute_groups
  dsimp only
  rw [flatten_node_list]
  rfl

/-- Claim C4: `compute_groups` raises a configuration error exactly when
some factor name referenced by the group file does not occur among the
parameter names. -/
theorem compute_groups_error_iff (names : List String) (nv : Nat)
    (rows : List (String × List String)) :
    (∃ e, compute_groups names nv rows = Except.error e) ↔
      ∃ r ∈ rows, ∃ x ∈ r.2, x ∉ names := by
  unfold compute_groups
  dsimp only
  by_cases hcond : ((!((flatten ((rows.map (fun g => g.2)).map
      (fun ms => NestedList.node (ms.map NestedList.leaf)))).all
        (fun x => names.contains x))) = true)
  · rw [if_pos hcond]
    constructor
    · intro _
      have hfalse : ¬ ((flatten ((rows.map (fun g => g.2)).map
          (fun ms => NestedList.node (ms.map NestedList.leaf)))).all
            (fun x => names.contains x) = true) := by
        simpa using hcond
      rw [flatten_node_list, List.all_eq_true] at hfalse
      push_neg at hfalse
      obtain ⟨x, hx, hxc⟩ := hfalse
      rw [List.mem_flatten] at hx
      obtain ⟨l, hl, hxl⟩ := hx
      rw [List.mem_map] at hl
      obtain ⟨r, hr, rfl⟩ := hl
      exact ⟨r, hr, x, hxl, fun hmem => hxc (List.elem_iff.mpr hmem)⟩
    · intro _
      exact ⟨ConfigError.groupParamMismatch, rfl⟩
  · rw [if_neg hcond]
    constructor
    · rintro ⟨e, he⟩
      exact Except.noConfusion he
    · rintro ⟨r, hr, x, hx, hxn⟩
      exfalso
      have hall : ((flatten ((rows.map (fun g => g.2)).map
          (fun ms => NestedList.node (ms.map NestedList.leaf)))).all
            (fun x => names.contains x) = true) := by
        simpa using hcond
      rw [flatten_node_list, List.all_eq_true] at hall
      refine hxn (List.elem_iff.mp (hall x ?_))
      rw [List.mem_flatten]
      exact ⟨r.2, List.mem_map.mpr ⟨r, hr, rfl⟩, hx⟩

/-- Claim C6: `compute_groups` does NOT raise on a group file in which a
factor belongs to zero groups or to several groups; it silently returns a
matrix (row of `"b"` sums to 0 in the first file, row of `"a"` sums to 2 in
the second).  The spec requires a configuration error here. -/
theorem compute_groups_silent_on_bad_multiplicity :
    (∃ M, compute_groups ["a", "b"] 2 [("g", ["a"])] = Except.ok M) ∧
    (compute_groups ["a", "b"] 2 [("g", ["a"])]).map (fun M => row_sum M 1) =
      Except.ok 0 ∧
    (∃ M, compute_groups ["a", "b"] 2 [("g1", ["a"]), ("g2", ["a", "b"])] =
      Except.ok M) ∧
    (compute_groups ["a", "b"] 2 [("g1", ["a"]), ("g2", ["a", "b"])]).map
      (fun M => row_sum M 0) = Except.ok 2 := by
  refine ⟨?_, ?_, ?_, ?_⟩
  · unfold compute_groups
    dsimp only
    rw [flatten_node_list]
    exact ⟨_, rfl⟩
  · unfold compute_groups
    dsimp only
    rw [flatten_node_list]
    rfl
  · unfold compute_groups
    dsimp only
    rw [flatten_node_list]
    exact ⟨_, rfl⟩
  · unfold compute_groups
    dsimp only
    rw [flatten_node_list]
    rfl

/-- Claim C5, amended: for a valid group file over pairwise-distinct
parameter names in which each factor belongs to exactly one group, every
row of the returned matrix sums to exactly 1 and every entry is 0 or 1. -/
theorem compute_groups_row_sums_one (names : List String) (nv : Nat)
    (rows : List (String × List String)) (hnd : names.Nodup)
    (hnv : nv = names.length)
    (hval : ∀ r ∈ rows, ∀ x ∈ r.2, x ∈ names)
    (hone : ∀ i, i < nv →
      ((List.range rows.length).filter
        (fun j => names.getD i "" ∈ (rows.getD j ("", [])).2)).length = 1) :
    ∃ M, compute_groups names nv rows = Except.ok M ∧
      (∀ a b, M.entry a b = 0 ∨ M.entry a b = 1) ∧
      (∀ i, i < nv → row_sum M i = 1) := by
  obtain ⟨M, hM, hr, hc, h01, hent⟩ :=
    compute_groups_entry_iff names nv rows hnd hval
  refine ⟨M, hM, h01, ?_⟩
  intro i hi
  unfold row_sum
  rw [hc]
  have hmc : (List.range rows.length).map (fun j => M.entry i j) =
      (List.range rows.length).map
        (fun j => if names.getD i "" ∈ (rows.getD j ("", [])).2 then 1
          else 0) := by
    apply List.map_congr_left
    intro j hj
    exact hent i (hnv ▸ hi) j (List.mem_range.mp hj)
  rw [hmc, sum_map_ite]
  exact hone i hi

/-- Witness for the amended claim C5 at a concrete two-group file. -/
theorem compute_groups_row_sums_one_witness :
    List.Nodup ["a", "b", "c"] ∧
    ∃ M, compute_groups ["a", "b", "c"] 3 [("g1", ["a", "b"]), ("g2", ["c"])] =
        Except.ok M ∧
      (∀ a b2, M.entry a b2 = 0 ∨ M.entry a b2 = 1) ∧
      (∀ i, i < 3 → row_sum M i = 1) :=
  ⟨by decide, compute_groups_row_sums_one ["a", "b", "c"] 3
    [("g1", ["a", "b"]), ("g2", ["c"])] (by decide) (by decide) (by decide)
    (by decide)⟩

/-- Counterexample to claim C5 as stated: with the duplicated parameter
names `["a", "a"]`, each factor (each position holds the name `"a"`)
belongs to exactly one group of the valid file `[("g", ["a"])]`, yet row 0
of the returned matrix sums to 0, not 1. -/
theorem compute_groups_row_sum_counterexample :
    (∀ r ∈ [("g", ["a"])], ∀ x ∈ r.2, x ∈ ["a", "a"]) ∧
    (∀ i, i < 2 → ((List.range 1).filter
      (fun j => ["a", "a"].getD i "" ∈
        ([("g", ["a"])].getD j ("", [])).2)).length = 1) ∧
    (compute_groups ["a", "a"] 2 [("g", ["a"])]).map (fun M => row_sum M 0) =
      Except.ok 0 := by
  refine ⟨by decide, by decide, ?_⟩
  unfold compute_groups
  dsimp only
  rw [flatten_node_list]
  rfl

end SALib
